import Mathlib

/-
Verification of the acorn_prng crate (src/lib.rs): a shallow embedding of the
ACORN pseudo-random number generator and proofs about its construction,
state-transition step, range sampling, fair index selection and bounds table.

Machine integers: every Rust u128 value is modelled as a Nat together with
explicit reductions modulo 2 ^ 128 at the points where the Rust code could
overflow.  Rust loops with no static bound (rejection sampling, the fair
index selector) are modelled with an explicit fuel argument and an Option
result: a `some` answer of the fuelled function is an answer of the Rust
loop, and `none` means the fuel ran out.
-/

namespace AcornPrng

/-- Embeds `struct Order(usize)`; `Order::new` clamps its input to
[45, 65535] (`input.clamp(45, 65_535)`). -/
structure Order where
  val : Nat
deriving DecidableEq

def Order.new (input : Nat) : Order :=
  ⟨min (max input 45) 65535⟩

/-- Embeds `struct Seed(u128)`; `Seed::new` clamps its input to
[1000000, u128::MAX]. -/
structure Seed where
  val : Nat
deriving DecidableEq

def Seed.new (input : Nat) : Seed :=
  ⟨min (max input 1000000) 340282366920938463463374607431768211455⟩

/-- Embeds `enum NumType`. -/
inductive NumType where
  | Usize
  | U8
  | U16
  | U32
  | U64
  | U128
deriving DecidableEq

/-- Embeds `struct Acorn { k: Order, m: u128, y: Vec<u128> }`, with the order
flattened to its underlying Nat. -/
structure Acorn where
  k : Nat
  m : Nat
  y : List Nat
deriving DecidableEq

/-- The body of the `(1..self.k.0).for_each` loop in `Acorn::generate_u128`,
with the loop counter made explicit.  Arguments: remaining iterations,
current index, current `first`, current `second`, the history vector.
Each iteration computes `first = (second + y[index]) % m`, writes
`y[index-1] = second` and sets `second = first`. -/
def gloopAux (m : Nat) : Nat → Nat → Nat → Nat → List Nat → Nat × List Nat
  | 0, _, first, _, y => (first, y)
  | steps + 1, index, _, second, y =>
    let first := (second + y.getD index 0) % m
    gloopAux m steps (index + 1) first first (y.set (index - 1) second)

/-- Embeds `Acorn::generate_u128`: run the loop with `first = 0`,
`second = y[0]`, indices `1 .. k`, then write `y[k-1] = first` and return
`first` together with the updated state. -/
def generate_u128 (a : Acorn) : Nat × Acorn :=
  let p := gloopAux a.m (a.k - 1) 1 0 (a.y.getD 0 0) a.y
  (p.1, ⟨a.k, a.m, p.2.set (a.k - 1) p.1⟩)

/-- Advance the generator one raw step, keeping only the state.  Used to
describe warm-up and reachable states. -/
def stepA (a : Acorn) : Acorn :=
  (generate_u128 a).2

/-- Embeds `Acorn::new`: force the seed odd, reduce it modulo `m = 2 ^ 120`,
fill a vector of length `k` with it, then discard 67 raw draws. -/
def Acorn.new (k : Order) (seed : Seed) : Acorn :=
  let s0 := if seed.val % 2 == 0 then seed.val + 1 else seed.val
  let m := 2 ^ 120
  let s1 := s0 % m
  let y := List.replicate k.val s1
  let a : Acorn := ⟨k.val, m, y⟩
  (List.range 67).foldl (fun acc _ => (generate_u128 acc).2) a

/-- Models `u128::is_power_of_two` for values below 2 ^ 128: true exactly
when the value is 2 ^ j for some j < 128. -/
def isPow2 (n : Nat) : Bool :=
  (List.range 128).any (fun j => n == 2 ^ j)

/-- Helper for `nextPow2`: double `acc` until it reaches `n`, with fuel. -/
def np2Go (n : Nat) : Nat → Nat → Nat
  | 0, acc => acc
  | fuel + 1, acc => if n ≤ acc then acc else np2Go n fuel (2 * acc)

/-- Models `u128::next_power_of_two`: the least power of two that is greater
than or equal to the argument (1 for inputs 0 and 1). -/
def nextPow2 (n : Nat) : Nat :=
  np2Go n 128 1

/-- The `while number > upper_bound` rejection loop of
`Acorn::generate_from_zero_range`, with fuel. -/
def fzrLoop (upper_bound x : Nat) : Nat → Nat → Acorn → Option (Nat × Acorn)
  | 0, number, a =>
    if upper_bound < number then none else some (number, a)
  | fuel + 1, number, a =>
    if upper_bound < number then
      let p := generate_u128 a
      fzrLoop upper_bound x fuel (p.1 % x) p.2
    else some (number, a)

/-- Embeds `Acorn::generate_from_zero_range`: if `upper_bound` is a power of
two, one raw draw reduced modulo `upper_bound`; otherwise draw modulo
`x` (the next power of two, capped at 2 ^ 127) and reject while the result
exceeds `upper_bound`. -/
def generate_from_zero_range (fuel : Nat) (a : Acorn) (upper_bound : Nat) :
    Option (Nat × Acorn) :=
  if isPow2 upper_bound then
    let p := generate_u128 a
    some (p.1 % upper_bound, p.2)
  else
    let x := if upper_bound > 2 ^ 127 then 2 ^ 127 else nextPow2 upper_bound
    let p := generate_u128 a
    fzrLoop upper_bound x fuel (p.1 % x) p.2

/-- Embeds `Acorn::generate_number_between_range` on the inclusive range
`lo ..= hi`: `generate_from_zero_range(hi - lo) + lo`. -/
def generate_number_between_range (fuel : Nat) (a : Acorn) (lo hi : Nat) :
    Option (Nat × Acorn) :=
  match generate_from_zero_range fuel a (hi - lo) with
  | none => none
  | some p => some (p.1 + lo, p.2)

/-- Embeds `Acorn::generate_u128_between_range`, which just forwards to
`generate_number_between_range`. -/
def generate_u128_between_range (fuel : Nat) (a : Acorn) (lo hi : Nat) :
    Option (Nat × Acorn) :=
  generate_number_between_range fuel a lo hi

/-- Embeds `Acorn::coin_flip_is_even`: one raw draw reduced modulo 2. -/
def coin_flip_is_even (a : Acorn) : Bool × Acorn :=
  let p := generate_u128 a
  (p.1 % 2 == 0, p.2)

/-- One coin flip per live index, in order (the
`for _ in &indicies { coin_flips.push(self.coin_flip_is_even()); }` loop). -/
def drawFlips : Nat → Acorn → List Bool × Acorn
  | 0, a => ([], a)
  | n + 1, a =>
    let p := coin_flip_is_even a
    let q := drawFlips n p.2
    (p.1 :: q.1, q.2)

/-- The removal pass of `Acorn::generate_index`: walk the flips with their
positions, removing from the index vector (with a running offset) every
index whose flip came up heads (even). -/
def removeHeads (flips : List Bool) (indicies : List Nat) : List Nat :=
  (flips.enum.foldl
    (fun (st : List Nat × Nat) p =>
      if p.2 then (st.1.eraseIdx (p.1 - st.2), st.2 + 1) else st)
    (indicies, 0)).1

/-- The `while indicies.len() > 1` loop of `Acorn::generate_index`, with
fuel: flip one coin per live index; a degenerate all-heads or all-tails
round is discarded, otherwise the heads are removed. -/
def giLoop : Nat → List Nat → Acorn → Option (List Nat × Acorn)
  | 0, indicies, a =>
    if indicies.length > 1 then none else some (indicies, a)
  | fuel + 1, indicies, a =>
    if indicies.length > 1 then
      let p := drawFlips indicies.length a
      if p.1.all (fun flip => flip) || p.1.all (fun flip => !flip) then
        giLoop fuel indicies p.2
      else
        giLoop fuel (removeHeads p.1 indicies) p.2
    else some (indicies, a)

/-- Embeds `Acorn::generate_index`: run the elimination loop on the index
vector `[0, upper_bound)` and return its sole survivor. -/
def generate_index (fuel : Nat) (upper_bound : Nat) (a : Acorn) :
    Option (Nat × Acorn) :=
  match giLoop fuel (List.range upper_bound) a with
  | none => none
  | some p =>
    match p.1.head? with
    | none => none
    | some i => some (i, p.2)

/-- Embeds `Acorn::generate_bounds`: the digit-length lookup table, written
as the same chain of cases as the source `match`; the `unreachable!()` arm
becomes `none`. -/
def generate_bounds (length : Nat) (num_type : NumType) : Option (Nat × Nat) :=
  if length = 2 then some (10, 99)
  else if length = 3 then some (100, if num_type = NumType.U8 then 255 else 999)
  else if length = 4 then some (1000, 9999)
  else if length = 5 then some (10000, if num_type = NumType.U16 then 65535 else 99999)
  else if length = 6 then some (100000, 999999)
  else if length = 7 then some (1000000, 9999999)
  else if length = 8 then some (10000000, 99999999)
  else if length = 9 then some (100000000, 999999999)
  else if length = 10 then some (1000000000, if num_type = NumType.U32 then 4294967295 else 9999999999)
  else if length = 11 then some (10000000000, 99999999999)
  else if length = 12 then some (100000000000, 999999999999)
  else if length = 13 then some (1000000000000, 9999999999999)
  else if length = 14 then some (10000000000000, 99999999999999)
  else if length = 15 then some (100000000000000, 999999999999999)
  else if length = 16 then some (1000000000000000, 9999999999999999)
  else if length = 17 then some (10000000000000000, 99999999999999999)
  else if length = 18 then some (100000000000000000, 999999999999999999)
  else if length = 19 then some (1000000000000000000, 9999999999999999999)
  else if length = 20 then some (10000000000000000000,
    if num_type = NumType.U64 then 18446744073709551615 else 99999999999999999999)
  else if length = 21 then some (100000000000000000000, 999999999999999999999)
  else if length = 22 then some (1000000000000000000000, 9999999999999999999999)
  else if length = 23 then some (10000000000000000000000, 99999999999999999999999)
  else if length = 24 then some (100000000000000000000000, 999999999999999999999999)
  else if length = 25 then some (1000000000000000000000000, 9999999999999999999999999)
  else if length = 26 then some (10000000000000000000000000, 99999999999999999999999999)
  else if length = 27 then some (100000000000000000000000000, 999999999999999999999999999)
  else if length = 28 then some (1000000000000000000000000000, 9999999999999999999999999999)
  else if length = 29 then some (10000000000000000000000000000, 99999999999999999999999999999)
  else if length = 30 then some (100000000000000000000000000000, 999999999999999999999999999999)
  else if length = 31 then some (1000000000000000000000000000000, 9999999999999999999999999999999)
  else if length = 32 then some (10000000000000000000000000000000, 99999999999999999999999999999999)
  else if length = 33 then some (100000000000000000000000000000000, 999999999999999999999999999999999)
  else if length = 34 then some (1000000000000000000000000000000000, 9999999999999999999999999999999999)
  else if length = 35 then some (10000000000000000000000000000000000, 99999999999999999999999999999999999)
  else if length = 36 then some (100000000000000000000000000000000000, 999999999999999999999999999999999999)
  else if length = 37 then some (1000000000000000000000000000000000000, 9999999999999999999999999999999999999)
  else if length = 38 then some (10000000000000000000000000000000000000, 99999999999999999999999999999999999999)
  else if length = 39 then some (100000000000000000000000000000000000000, 340282366920938463463374607431768211455)
  else none

/-- The seed value actually stored at construction, in the words of the
spec: the clamped seed, incremented by one if even, reduced modulo 2 ^ 120. -/
def processedSeed (s : Nat) : Nat :=
  (if s % 2 == 0 then s + 1 else s) % 2 ^ 120

/-- The pre-warm-up state of the spec construction pipeline: history buffer
of length `order` with the processed seed replicated in every slot. -/
def acornInit (k : Order) (seed : Seed) : Acorn :=
  ⟨k.val, 2 ^ 120, List.replicate k.val (processedSeed seed.val)⟩

/-- The construction pipeline in the words of the spec: the initial state
followed by exactly 67 raw generation steps. -/
def newRef (k : Order) (seed : Seed) : Acorn :=
  stepA^[67] (acornInit k seed)

/-- A generator state reachable from the public constructor: `Acorn::new`
on clamped inputs followed by `n` raw steps. -/
def reach (oin sin n : Nat) : Acorn :=
  stepA^[n] (Acorn.new (Order.new oin) (Seed.new sin))

/-- The fresh generator of the concrete scenario in the spec and the crate
test suite: order 45, seed 1000000. -/
def acornDefault : Acorn :=
  Acorn.new (Order.new 45) (Seed.new 1000000)

/-- Wrapped-arithmetic variant of the step loop: the addition
`second + y[index]` is reduced modulo 2 ^ 128, exactly as a release-mode
Rust u128 addition would wrap.  Used to state that the real loop never
overflows. -/
def gloopAuxW (m : Nat) : Nat → Nat → Nat → Nat → List Nat → Nat × List Nat
  | 0, _, first, _, y => (first, y)
  | steps + 1, index, _, second, y =>
    let first := (second + y.getD index 0) % 2 ^ 128 % m
    gloopAuxW m steps (index + 1) first first (y.set (index - 1) second)

/-- Wrapped-arithmetic variant of `generate_u128`. -/
def generate_u128_w (a : Acorn) : Nat × Acorn :=
  let p := gloopAuxW a.m (a.k - 1) 1 0 (a.y.getD 0 0) a.y
  (p.1, ⟨a.k, a.m, p.2.set (a.k - 1) p.1⟩)

/-- Reference form of the step loop used for proofs: a structural pass that
threads the running prefix sum `second` along the tail of the history
buffer, returning the final `first` and the list of values written back. -/
def loopRef (m : Nat) : Nat → Nat → List Nat → Nat × List Nat
  | first, _, [] => (first, [])
  | _, second, x :: t =>
    let s := (second + x) % m
    let p := loopRef m s s t
    (p.1, second :: p.2)

/-- Decimal digit length of a u128 value (1 for 0 through 9, up to 39). -/
def decimalLen (n : Nat) : Nat :=
  ((List.range 39).find? (fun d => n < 10 ^ (d + 1))).getD 38 + 1

/-- Lower bound of the digit-length class `l` per the spec bounds table
(length 1 starts at 0 so that zero can be generated). -/
def specLenLo (l : Nat) : Nat :=
  if l = 1 then 0 else 10 ^ (l - 1)

/-- Upper bound of the digit-length class `l` per the spec bounds table
(length 39 is capped at the largest representable u128 value). -/
def specLenHi (l : Nat) : Nat :=
  if l = 39 then 2 ^ 128 - 1 else 10 ^ l - 1

/-- Reference multi-length range algorithm following the words of the spec:
for each digit length between the lengths of `lo` and `hi`, draw one
candidate constrained to the requested range at that length. -/
def specCandidates (fuel : Nat) (lo hi : Nat) :
    List Nat → Acorn → Option (List Nat × Acorn)
  | [], a => some ([], a)
  | l :: ls, a =>
    match generate_number_between_range fuel a
        (max lo (specLenLo l)) (min hi (specLenHi l)) with
    | none => none
    | some p =>
      match specCandidates fuel lo hi ls p.2 with
      | none => none
      | some q => some (p.1 :: q.1, q.2)

/-- Reference multi-length range algorithm following the words of the spec:
collect one in-range candidate per digit length from `len(lo)` to
`len(hi)`, then pick among the candidates with the fair index selector. -/
def specMultiLenRange (fuel : Nat) (a : Acorn) (lo hi : Nat) :
    Option (Nat × Acorn) :=
  let ls := (List.range (decimalLen hi + 1 - decimalLen lo)).map
    (fun i => decimalLen lo + i)
  match specCandidates fuel lo hi ls a with
  | none => none
  | some p =>
    match generate_index fuel p.1.length p.2 with
    | none => none
    | some q => some (p.1.getD q.1 0, q.2)

/-- Computed generator state literal used to stage kernel evaluation. -/
def warm16 : Acorn :=
  ⟨45, 2 ^ 120, [1000001, 17000017, 153000153,
    969000969, 4845004845, 20349020349,
    74613074613, 245157245157, 735471735471,
    2042977042975, 5311740311735, 13037908037895,
    30421785421755, 67863982863915, 145422820422675,
    300540495540195, 601080991080390, 1166804276803110,
    2203963633961430, 4059933009928950, 7307879417872110,
    12875787545774670, 22239996669974430, 37711298701260990,
    62852164502101650, 103077549783446706, 166509888111721602,
    265182414400149218, 416715222628805914, 646627069596422970,
    991494840047848554, 1503234112330609098, 2254851168495913647,
    3348112341099992991, 4923694619264695575, 7174526445214270695,
    10363204865309502115, 14844590753010908435, 21094944754278659355,
    29749281063726314475, 41648993489216840265, 57902259241106338905,
    79960262761527801345, 109712918672793959985, 149608525462900854525]⟩

/-- Computed generator state literal used to stage kernel evaluation. -/
def warm32 : Acorn :=
  ⟨45, 2 ^ 120, [1000001, 33000033, 561000561,
    6545006545, 58905058905, 435897435897,
    2760683760681, 15380952380937, 76904761904685,
    350343915343565, 1471444444442973, 5752010101004349,
    21090703703682613, 73006282051209045, 239877783882544005,
    751617056165304549, 2254851168495913647, 6499276897429398159,
    18053546937303883775, 48459520726447266975, 125994753888762894135,
    317986759814496828055, 780512955908310396135, 1866444024998133555975,
    4355036058328978297275, 9929482212990070517787, 22150383398208618847371,
    48402689647937352296107, 103720049245580040634515, 218169758757944223403635,
    450884168099751395034179, 916312986783365738295267, 1832625973566731476590534,
    3609717826722349878132870, 7007099310696326234022630, 13413590109047253076557606,
    25336781317089255811275478, 47249673267004287864270486, 87038871807639477644708790,
    158455382008779561866008310, 285219687615803211358814958, 507830175511064254370572974,
    894748404471875114843390478, 1560607682218386828215215950, 2695595087468122703280827550]⟩

/-- Computed generator state literal used to stage kernel evaluation. -/
def warm48 : Acorn :=
  ⟨45, 2 ^ 120, [1000001, 49000049, 1225001225,
    20825020825, 270725270725, 2869687869685,
    25827190827165, 202927927927725, 1420495495494075,
    8996471471462475, 52179534534482355, 279872048866768995,
    1399360244333844975, 6566228838797272575, 29079013428959349975,
    122131856401629269895, 488527425606517079580, 1867898980260212363100,
    6848962927620778664700, 24151606113189061607100, 82115460784842809464140,
    269807942578769231096460, 858479817296083917125100, 2650089870783563396342700,
    7950269612350690189028100, 23214787268064015351962052, 66072856070643736001738148,
    183535711307343711115939300, 498168359262790073028978100, 1322722884939132262870045300,
    3439079500841743883462117780, 8764105824725734412693784020, 21910264561814336031734460050,
    53779740288089733896075492850, 129704079518334064102299718050, 307583960000620780585453617090,
    717695906668115154699391773210, 1648760866669994274309413533050, 3731406171937355462910777995850,
    8323906075860254494185581683050, 18312593366892559887208279702710, 39751727064717995852720412037590,
    85182272281538562541543740080550, 180269459944651376541406519705350, 376927052611543787313849995747550]⟩

/-- Computed generator state literal used to stage kernel evaluation. -/
def warm64 : Acorn :=
  ⟨45, 2 ^ 120, [1000001, 65000065, 2145002145,
    47905047905, 814385814385, 11238524238513,
    131116116115985, 1329892034890705, 11969028314016345,
    97082118547021465, 718407677247958841, 4898234163054264825,
    31022149699343677225, 183746578988420242025, 1023730940078341348425,
    5391649617745931101705, 26958248088729655508525, 128448123246300123305325,
    585152561455367228390925, 2556192768462919997707725, 10736009627544263990372445,
    43455277063869639961031325, 169870628522399501665849725, 642554116584728549779518525,
    2356031760810671349191567925, 8387473068485990003121981813, 29033560621682273087729937045,
    97853852465669883369756454485, 321519800958629616786342636165, 1031080741005260495211374660805,
    3230719655149816218328973937189, 9900592491588146475524274968805, 29701777474764439426572824906415,
    87305224698550018920532242906735, 251644471189938289829769406025295, 711794361365825448375633462757263,
    1977206559349515134376759618770175, 5397239526873000772217641121507775, 14487327151080159967531563010362975,
    38261402475929653247583358719676575, 99479646437417098443716732671159095, 254764948193385252111957486109065975,
    642978202583305636282559369703833175, 270741019945635361566747650378030999, 1268740683405157647892838351055323623]⟩

/-- Computed generator state literal used to stage kernel evaluation. -/
def warm67 : Acorn :=
  ⟨45, 2 ^ 120, [1000001, 68000068, 2346002346,
    54740054740, 971635971635, 13991557991544,
    170230622230452, 1799580863579064, 16871070596053725,
    142466818366675900, 1096994501423404430, 7778688282820504140,
    51209697861901652255, 315136602227087090800, 1823290341456718168200,
    9967320533296725986160, 51705475266476766053205, 255485877787296961674660,
    1206461089551124541241450, 5460823879020879502461300, 23754583873740825835706655,
    99543018137580603502008840, 402696755192939714167217580, 1575769911624546707610851400,
    5974794248243072933024478225, 21987242833534508393530079868, 78646676289181126176857593374,
    273806947080852809652763473228, 928987856167179175607590355595, 3075270144553420719252712901280,
    9943373467389393658917105047472, 31433890316263244470125041762976, 97248598165939412579449347954207,
    294692721714967916907422266527900, 875410732153287047283813203509350, 2551196990846722252084255621655820,
    7299258057144788665685509139737485, 20516833457920487060305214879262120, 56691250344253977403474935850592700,
    154083911192074912942778030773405800, 412174462438800392121931232318860515, 1085727852277815667052892026596022820,
    159266291722594628210605662748036738, 561986792288604382969433911713622420, 904174045811170833414601003987414337]⟩

/-- Computed generator state literal used to stage kernel evaluation. -/
def warm79 : Acorn :=
  ⟨45, 2 ^ 120, [1000001, 80000080, 3240003240,
    88560088560, 1837621837620, 30872046872016,
    437353997353560, 5373206253200880, 58433618003559570,
    571350931590360240, 5085023291154206136, 41604736018534413840,
    315502581473885971620, 2232787499661346876080, 14832088390607518533960,
    92947753914473782812816, 551877288867188085451095, 3116483513602944482547360,
    16794383378860311933727440, 86623661638332135237120480, 428787125109744069423746376,
    2041843452903543187732125600, 9373917670148084634588394800, 41571287058917592727305055200,
    178410106961188002121350861900, 742186044958542088824819585504, 2997289796947958435638694479920,
    11767137721351244228803763513760, 44967276292306540445785810570440, 167464339295486426487754053158880,
    608453766106934016238839726477264, 2159029492637507799557173222983840, 7489133552586355179713944617225195,
    25417665390596114549332175670582480, 84476358504040027766898113258112360, 275151567698873233297896711754994544,
    878956396815845050812725606995121460, 97191090339304089172822917586178128, 509124356431791412385345361033287064,
    415696158924337509119105631094269296, 605312774802069050000030898872287482, 215477784843227417088316316371169712,
    620781237286440892087768435259798456, 710268816099038352464611838422411536, 595876740319899709081184803478653828]⟩


set_option maxRecDepth 100000
set_option maxHeartbeats 1000000

/-- Elements read through `List.getD` stay below a bound satisfied by both
the default and every list element. -/
theorem getD_lt_of_forall {l : List Nat} {m d : Nat} (hd : d < m)
    (h : ∀ e ∈ l, e < m) (i : Nat) : l.getD i d < m := by
  induction l generalizing i with
  | nil => simpa [List.getD] using hd
  | cons x t ih =>
    cases i with
    | zero => simpa using h x (List.mem_cons_self x t)
    | succ j =>
      simpa using ih (fun e he => h e (List.mem_cons_of_mem x he)) j

/-- Bridge between the indexed in-place loop of `generate_u128` and the
structural reference pass `loopRef`: running the remaining iterations over
`rtail`, with a transformed segment `pre` already in place and `r0` the
original element about to be overwritten, yields the `loopRef` result
followed by the last original element. -/
theorem gloopAux_eq_loopRef (m : Nat) :
    ∀ (rtail pre : List Nat) (r0 first second : Nat),
      gloopAux m rtail.length (pre.length + 1) first second (pre ++ r0 :: rtail)
        = ((loopRef m first second rtail).1,
           pre ++ (loopRef m first second rtail).2 ++ [rtail.getLastD r0]) := by
  intro rtail
  induction rtail with
  | nil =>
    intro pre r0 first second
    simp [gloopAux, loopRef]
  | cons x rt ih =>
    intro pre r0 first second
    have hget : (pre ++ r0 :: x :: rt).getD (pre.length + 1) 0 = x := by
      rw [List.getD_append_right _ _ _ _ (by omega)]
      simp
    have hset :
        (pre ++ r0 :: x :: rt).set (pre.length + 1 - 1) second
          = (pre ++ [second]) ++ x :: rt := by
      rw [show pre.length + 1 - 1 = pre.length from by omega,
        List.set_append_right _ _ (Nat.le_refl _)]
      simp
    have hlen : (x :: rt).length = rt.length + 1 := by simp
    rw [hlen, gloopAux]
    simp only [hget, hset]
    rw [show pre.length + 1 + 1 = (pre ++ [second]).length + 1 from by simp]
    rw [ih (pre ++ [second]) x ((second + x) % m) ((second + x) % m)]
    rw [show (x :: rt).getLastD r0 = rt.getLastD x from List.getLastD_cons r0 x rt]
    simp [loopRef, List.append_assoc]

/-- The value returned by the reference pass is the running total of the
tail, added to the incoming prefix sum, reduced modulo `m`. -/
theorem loopRef_fst (m : Nat) :
    ∀ (t : List Nat) (first second : Nat), t ≠ [] →
      (loopRef m first second t).1 = (second + t.sum) % m := by
  intro t
  induction t with
  | nil => intro f s h; exact absurd rfl h
  | cons x rt ih =>
    intro f s _
    cases rt with
    | nil => simp [loopRef]
    | cons b u =>
      have hb := ih ((s + x) % m) ((s + x) % m) (by simp)
      calc (loopRef m f s (x :: b :: u)).1
          = ((s + x) % m + (b :: u).sum) % m := by
            simpa [loopRef] using hb
        _ = (s + (x :: b :: u).sum) % m := by
            rw [Nat.mod_add_mod]
            congr 1
            simp [List.sum_cons]
            ring

/-- The written-back segment of the reference pass has the length of the
tail it consumed. -/
theorem loopRef_snd_length (m : Nat) :
    ∀ (t : List Nat) (first second : Nat),
      (loopRef m first second t).2.length = t.length := by
  intro t
  induction t with
  | nil => intro f s; simp [loopRef]
  | cons x rt ih => intro f s; simp [loopRef, ih]

/-- On a nonempty tail the first written-back value is the incoming
`second`. -/
theorem loopRef_snd_cons (m first second x : Nat) (t : List Nat) :
    (loopRef m first second (x :: t)).2
      = second :: (loopRef m ((second + x) % m) ((second + x) % m) t).2 := by
  simp [loopRef]

/-- All values written back by the reference pass stay below the modulus,
provided the incoming `second` does. -/
theorem loopRef_snd_lt (m : Nat) (hm : 0 < m) :
    ∀ (t : List Nat) (first second : Nat), second < m →
      ∀ e ∈ (loopRef m first second t).2, e < m := by
  intro t
  induction t with
  | nil => intro f s _ e he; simp [loopRef] at he
  | cons x rt ih =>
    intro f s hs e he
    rw [loopRef_snd_cons] at he
    rcases List.mem_cons.mp he with h | h
    · exact h ▸ hs
    · exact ih _ _ (Nat.mod_lt _ hm) e h

/-- Invariant of the step loop: under the history invariant the wrapped
    128-bit addition never actually wraps (so the wrapped loop agrees with
    the exact one), every element written stays below the modulus, and the
    returned value is below the modulus or is the untouched incoming
    `first`. -/
theorem gloopAux_inv (m : Nat) (hm : 0 < m) (hw : 2 * m ≤ 2 ^ 128) :
    ∀ (steps index first second : Nat) (y : List Nat),
      second < m → (∀ e ∈ y, e < m) →
      gloopAuxW m steps index first second y
          = gloopAux m steps index first second y
      ∧ (∀ e ∈ (gloopAux m steps index first second y).2, e < m)
      ∧ ((gloopAux m steps index first second y).1 < m ∨
         (gloopAux m steps index first second y).1 = first) := by
  intro steps
  induction steps with
  | zero =>
    intro idx f s y hs hy
    exact ⟨rfl, hy, Or.inr rfl⟩
  | succ n ih =>
    intro idx f s y hs hy
    have hread : y.getD idx 0 < m := getD_lt_of_forall hm hy idx
    have hmod : (s + y.getD idx 0) % 2 ^ 128 = s + y.getD idx 0 :=
      Nat.mod_eq_of_lt (by omega)
    have hy2 : ∀ e ∈ y.set (idx - 1) s, e < m := by
      intro e he
      rcases List.mem_or_eq_of_mem_set he with h | h
      · exact hy e h
      · exact h ▸ hs
    have hs2 : (s + y.getD idx 0) % m < m := Nat.mod_lt _ hm
    obtain ⟨hW, hlt, hfst⟩ :=
      ih (idx + 1) ((s + y.getD idx 0) % m) ((s + y.getD idx 0) % m)
        (y.set (idx - 1) s) hs2 hy2
    refine ⟨?_, ?_, ?_⟩
    · rw [gloopAuxW, gloopAux, hmod]
      exact hW
    · rw [gloopAux]
      exact hlt
    · rw [gloopAux]
      rcases hfst with h | h
      · exact Or.inl h
      · exact Or.inl (by rw [h]; exact hs2)

/-- Full specification of one raw generation step on a well-formed state:
the returned value is the sum of the history modulo the modulus, the order,
modulus and history length are preserved, the head of the history is
untouched and the returned value is written back as the last element. -/
theorem generate_u128_spec (a : Acorn) (hm : 0 < a.m) (hk : 2 ≤ a.k)
    (hlen : a.y.length = a.k) :
    (generate_u128 a).1 = a.y.sum % a.m
    ∧ (generate_u128 a).2.k = a.k
    ∧ (generate_u128 a).2.m = a.m
    ∧ (generate_u128 a).2.y.length = a.k
    ∧ (generate_u128 a).2.y.head? = a.y.head?
    ∧ (generate_u128 a).2.y.getLast? = some ((generate_u128 a).1) := by
  obtain ⟨y0, x, t, hy⟩ : ∃ y0 x t, a.y = y0 :: x :: t := by
    cases hys : a.y with
    | nil => rw [hys] at hlen; simp at hlen; omega
    | cons y0 rest =>
      cases rest with
      | nil => rw [hys] at hlen; simp at hlen; omega
      | cons x t => exact ⟨y0, x, t, rfl⟩
  have hlt : (y0 :: x :: t : List Nat).length = a.k := by rw [← hy]; exact hlen
  have hk1 : a.k - 1 = (x :: t).length := by simp at hlt; simp; omega
  have hkey : gloopAux a.m (a.k - 1) 1 0 (a.y.getD 0 0) a.y
      = ((loopRef a.m 0 y0 (x :: t)).1,
         (loopRef a.m 0 y0 (x :: t)).2 ++ [(x :: t).getLastD y0]) := by
    rw [hy, show ((y0 :: x :: t : List Nat).getD 0 0) = y0 from rfl, hk1]
    simpa using gloopAux_eq_loopRef a.m (x :: t) [] y0 0 y0
  have hgen : generate_u128 a
      = ((loopRef a.m 0 y0 (x :: t)).1,
         ⟨a.k, a.m,
          ((loopRef a.m 0 y0 (x :: t)).2
            ++ [(x :: t).getLastD y0]).set (a.k - 1) (loopRef a.m 0 y0 (x :: t)).1⟩) := by
    unfold generate_u128
    rw [hkey]
  have hslen : (loopRef a.m 0 y0 (x :: t)).2.length = a.k - 1 := by
    rw [loopRef_snd_length, ← hk1]
  have hset : ((loopRef a.m 0 y0 (x :: t)).2
        ++ [(x :: t).getLastD y0]).set (a.k - 1) (loopRef a.m 0 y0 (x :: t)).1
      = (loopRef a.m 0 y0 (x :: t)).2 ++ [(loopRef a.m 0 y0 (x :: t)).1] := by
    rw [List.set_append_right _ _ (by omega), hslen]
    simp
  have hfst : (loopRef a.m 0 y0 (x :: t)).1 = a.y.sum % a.m := by
    rw [loopRef_fst a.m (x :: t) 0 y0 (by simp), hy]
    simp [Nat.add_comm]
  refine ⟨?_, ?_, ?_, ?_, ?_, ?_⟩
  · rw [hgen]
    exact hfst
  · rw [hgen]
  · rw [hgen]
  · rw [hgen]
    simp [hset, hslen]
    omega
  · rw [hgen, hy]
    simp only [hset]
    rw [loopRef_snd_cons]
    simp
  · rw [hgen]
    simp only [hset]
    exact List.getLast?_concat _

/-- One raw generation step keeps every history element below the modulus. -/
theorem generate_u128_lt (a : Acorn) (hm : 0 < a.m) (hw : 2 * a.m ≤ 2 ^ 128)
    (hy : ∀ e ∈ a.y, e < a.m) : ∀ e ∈ (generate_u128 a).2.y, e < a.m := by
  have hs : a.y.getD 0 0 < a.m := getD_lt_of_forall hm hy 0
  obtain ⟨_, hlt, hfst⟩ :=
    gloopAux_inv a.m hm hw (a.k - 1) 1 0 (a.y.getD 0 0) a.y hs hy
  intro e he
  simp only [generate_u128] at he
  rcases List.mem_or_eq_of_mem_set he with h | h
  · exact hlt e h
  · rcases hfst with h2 | h2
    · omega
    · omega

/-- The wrapped-arithmetic step agrees with the exact step whenever every
history element is below the modulus and twice the modulus fits in 128
bits: the internal additions never wrap. -/
theorem generate_u128_w_eq (a : Acorn) (hm : 0 < a.m) (hw : 2 * a.m ≤ 2 ^ 128)
    (hy : ∀ e ∈ a.y, e < a.m) : generate_u128_w a = generate_u128 a := by
  have hs : a.y.getD 0 0 < a.m := getD_lt_of_forall hm hy 0
  obtain ⟨hW, _, _⟩ :=
    gloopAux_inv a.m hm hw (a.k - 1) 1 0 (a.y.getD 0 0) a.y hs hy
  unfold generate_u128_w generate_u128
  rw [hW]

/-- Well-formedness of a generator state: modulus 2 ^ 120, order at least
45, history of length order, and every history element below the modulus. -/
def WF (a : Acorn) : Prop :=
  a.m = 2 ^ 120 ∧ 45 ≤ a.k ∧ a.y.length = a.k ∧ ∀ e ∈ a.y, e < a.m

/-- Raw steps preserve well-formedness and never change the head of the
history buffer. -/
theorem WF_step {a : Acorn} (h : WF a) :
    WF (stepA a) ∧ (stepA a).y.head? = a.y.head? := by
  obtain ⟨hm, hk, hlen, hy⟩ := h
  have hm0 : 0 < a.m := by rw [hm]; positivity
  obtain ⟨hv, hk2, hm2, hlen2, hhead, hlast⟩ :=
    generate_u128_spec a hm0 (by omega) hlen
  have hall := generate_u128_lt a hm0 (by rw [hm]; norm_num) hy
  refine ⟨⟨hm2.trans hm, ?_, ?_, ?_⟩, hhead⟩
  · show 45 ≤ (generate_u128 a).2.k
    omega
  · show (generate_u128 a).2.y.length = (generate_u128 a).2.k
    omega
  · intro e he
    have := hall e he
    show e < (generate_u128 a).2.m
    omega

/-- Iterated raw steps preserve well-formedness and the head of the
history buffer. -/
theorem WF_iterate {a : Acorn} (h : WF a) :
    ∀ n, WF (stepA^[n] a) ∧ (stepA^[n] a).y.head? = a.y.head? := by
  intro n
  induction n with
  | zero => exact ⟨h, rfl⟩
  | succ n ih =>
    rw [Function.iterate_succ_apply']
    obtain ⟨hwf, hh⟩ := ih
    obtain ⟨hwf2, hh2⟩ := WF_step hwf
    exact ⟨hwf2, hh2.trans hh⟩

/-- A foldl over `List.range` that ignores the counter is an iterate. -/
theorem foldl_range_eq_iterate (f : Acorn → Acorn) :
    ∀ (n : Nat) (a : Acorn),
      (List.range n).foldl (fun acc _ => f acc) a = f^[n] a := by
  intro n
  induction n with
  | zero => intro a; simp
  | succ n ih =>
    intro a
    rw [List.range_succ, List.foldl_append, Function.iterate_succ_apply']
    simp [ih]

/-- The source constructor is the spec pipeline: initial replicated state
followed by 67 raw steps. -/
theorem new_eq_iterate (k : Order) (s : Seed) :
    Acorn.new k s = stepA^[67] (acornInit k s) := by
  show (List.range 67).foldl (fun acc _ => stepA acc) (acornInit k s) = _
  exact foldl_range_eq_iterate stepA 67 (acornInit k s)

/-- Every state reachable from the public constructor is well formed and
still holds the processed seed at the head of its history buffer. -/
theorem reach_wf (oin sin n : Nat) :
    WF (reach oin sin n)
    ∧ (reach oin sin n).y.head? = some (processedSeed (Seed.new sin).val) := by
  have h45 : 45 ≤ (Order.new oin).val := by
    show 45 ≤ min (max oin 45) 65535
    omega
  have hinit : WF (acornInit (Order.new oin) (Seed.new sin)) := by
    refine ⟨rfl, h45, by simp [acornInit], ?_⟩
    intro e he
    simp only [acornInit] at he
    rw [List.eq_of_mem_replicate he]
    show processedSeed (Seed.new sin).val < 2 ^ 120
    exact Nat.mod_lt _ (by positivity)
  have hh : (acornInit (Order.new oin) (Seed.new sin)).y.head?
      = some (processedSeed (Seed.new sin).val) := by
    show (List.replicate (Order.new oin).val (processedSeed (Seed.new sin).val)).head? = _
    cases hv : (Order.new oin).val with
    | zero => omega
    | succ w => simp [List.replicate]
  have h67 := WF_iterate hinit 67
  have hn := WF_iterate h67.1 n
  constructor
  · show WF (stepA^[n] (Acorn.new (Order.new oin) (Seed.new sin)))
    rw [new_eq_iterate]
    exact hn.1
  · show (stepA^[n] (Acorn.new (Order.new oin) (Seed.new sin))).y.head? = _
    rw [new_eq_iterate, hn.2, h67.2, hh]

/-- Characterization of the power-of-two test on u128 values. -/
theorem isPow2_iff (n : Nat) :
    isPow2 n = true ↔ ∃ j, j < 128 ∧ n = 2 ^ j := by
  unfold isPow2
  rw [List.any_eq_true]
  constructor
  · rintro ⟨j, hj, hb⟩
    exact ⟨j, List.mem_range.mp hj, by simpa using hb⟩
  · rintro ⟨j, hj, hn⟩
    exact ⟨j, List.mem_range.mpr hj, by simpa using hn⟩

/-- A power of two is positive. -/
theorem isPow2_pos {n : Nat} (h : isPow2 n = true) : 0 < n := by
  obtain ⟨j, _, hn⟩ := (isPow2_iff n).mp h
  rw [hn]
  positivity

/-- The rejection loop returns immediately on an in-range number. -/
theorem fzrLoop_exit (upper_bound x fuel number : Nat) (a : Acorn)
    (h : number ≤ upper_bound) :
    fzrLoop upper_bound x fuel number a = some (number, a) := by
  cases fuel <;> simp [fzrLoop, Nat.not_lt.mpr h]

/-- A successful rejection loop result never exceeds the bound. -/
theorem fzrLoop_le (upper_bound x : Nat) :
    ∀ (fuel number : Nat) (a : Acorn) (p : Nat × Acorn),
      fzrLoop upper_bound x fuel number a = some p → p.1 ≤ upper_bound := by
  intro fuel
  induction fuel with
  | zero =>
    intro number a p hp
    rw [fzrLoop] at hp
    split at hp
    · exact absurd hp (by simp)
    · next h =>
      cases hp
      omega
  | succ f ih =>
    intro number a p hp
    rw [fzrLoop] at hp
    split at hp
    · exact ih _ _ p hp
    · next h =>
      cases hp
      omega

/-- A successful zero-based draw never exceeds the requested bound. -/
theorem generate_from_zero_range_le (fuel : Nat) (a : Acorn) (ub : Nat)
    (p : Nat × Acorn) (h : generate_from_zero_range fuel a ub = some p) :
    p.1 ≤ ub := by
  unfold generate_from_zero_range at h
  split at h
  · next hp =>
    cases h
    have h0 := isPow2_pos hp
    have := Nat.mod_lt (generate_u128 a).1 h0
    omega
  · exact fzrLoop_le _ _ _ _ _ p h

/-- Doubling search for the next power of two: starting from `2 ^ i` with
enough fuel, it lands exactly on `2 ^ j` when `n` lies strictly between
`2 ^ (j-1)` and `2 ^ j`. -/
theorem np2Go_eq (n : Nat) :
    ∀ (fuel i j : Nat), 2 ≤ j → i ≤ j → j ≤ i + fuel →
      2 ^ (j - 1) < n → n ≤ 2 ^ j → np2Go n fuel (2 ^ i) = 2 ^ j := by
  intro fuel
  induction fuel with
  | zero =>
    intro i j h2 hij hfj hlow hhigh
    have hi : i = j := by omega
    subst hi
    rfl
  | succ f ih =>
    intro i j h2 hij hfj hlow hhigh
    rw [np2Go]
    by_cases hc : n ≤ 2 ^ i
    · have hji : j ≤ i := by
        by_contra hx
        push_neg at hx
        have : 2 ^ i ≤ 2 ^ (j - 1) := Nat.pow_le_pow_right (by norm_num) (by omega)
        omega
      have hi : i = j := by omega
      subst hi
      simp [hc]
    · simp only [if_neg hc]
      have hij2 : i < j := by
        rcases Nat.lt_or_ge i j with h | h
        · exact h
        · have hi : i = j := by omega
          subst hi
          omega
      rw [show 2 * 2 ^ i = 2 ^ (i + 1) from by rw [Nat.pow_succ]; ring]
      exact ih (i + 1) j h2 (by omega) (by omega) hlow hhigh

/-- The next power of two of `2 ^ j - 1` is `2 ^ j`, for 2 ≤ j ≤ 128. -/
theorem nextPow2_pred_pow {j : Nat} (h2 : 2 ≤ j) (hj : j ≤ 128) :
    nextPow2 (2 ^ j - 1) = 2 ^ j := by
  have hmul : 2 ^ (j - 1) * 2 = 2 ^ j := by
    rw [← Nat.pow_succ]
    congr 1
    omega
  have h4 : 4 ≤ 2 ^ j := by
    calc (4 : Nat) = 2 ^ 2 := rfl
      _ ≤ 2 ^ j := Nat.pow_le_pow_right (by norm_num) h2
  have h1 : 2 ^ (j - 1) < 2 ^ j - 1 := by omega
  show np2Go (2 ^ j - 1) 128 1 = 2 ^ j
  rw [show (1 : Nat) = 2 ^ 0 from rfl]
  exact np2Go_eq _ 128 0 j h2 (by omega) (by omega) h1 (by omega)

/-- C1: for every pair lo ≤ hi, whenever the range sampler returns, the
returned value v satisfies lo ≤ v ≤ hi (so adding lo to the zero-based
sample cannot leave the u128 range, v being at most hi), and the u128
wrapper `generate_u128_between_range` returns the very same value. -/
theorem claim_C1_range_containment (fuel : Nat) (a : Acorn) (lo hi v : Nat)
    (hle : lo ≤ hi)
    (h : (generate_number_between_range fuel a lo hi).map Prod.fst = some v) :
    lo ≤ v ∧ v ≤ hi
    ∧ (generate_u128_between_range fuel a lo hi).map Prod.fst = some v := by
  unfold generate_number_between_range at h
  cases hz : generate_from_zero_range fuel a (hi - lo) with
  | none => rw [hz] at h; simp at h
  | some p =>
    rw [hz] at h
    simp at h
    have hp := generate_from_zero_range_le fuel a (hi - lo) p hz
    refine ⟨by omega, by omega, ?_⟩
    show (generate_number_between_range fuel a lo hi).map Prod.fst = some v
    unfold generate_number_between_range
    rw [hz]
    simp [h]

/-- Witness for C1 at a concrete small state and range. -/
theorem claim_C1_range_containment_witness :
    (0 : Nat) ≤ 2
    ∧ ((0 : Nat) ≤ 1 ∧ (1 : Nat) ≤ 2
        ∧ (generate_u128_between_range 10 ⟨2, 4, [3, 2]⟩ 0 2).map Prod.fst
            = some 1) :=
  ⟨by decide,
   claim_C1_range_containment 10 ⟨2, 4, [3, 2]⟩ 0 2 1 (by decide) (by decide)⟩

/-- Unfolding of the zero-based sampler on the non-power-of-two path. -/
theorem generate_from_zero_range_nonpow (fuel : Nat) (a : Acorn) (ub : Nat)
    (hf : isPow2 ub = false) (hub : ¬ ub > 2 ^ 127) :
    generate_from_zero_range fuel a ub
      = fzrLoop ub (nextPow2 ub) fuel
          ((generate_u128 a).1 % nextPow2 ub) (generate_u128 a).2 := by
  unfold generate_from_zero_range
  rw [if_neg (by simp [hf]), if_neg hub]

/-- C2 amended: the single-draw fast path of the zero-based sampler fires
when the width itself (hi - lo) is a power of two, reducing the raw draw
modulo the width; when width + 1 is a power of two but the width is not
(and the width does not exceed 2 ^ 127, where the cap takes over), the
general path draws once modulo width + 1 and never rejects. -/
theorem claim_C2_amended_pow2_paths (fuel : Nat) (a : Acorn) (ub : Nat) :
    (isPow2 ub = true →
      generate_from_zero_range fuel a ub
        = some ((generate_u128 a).1 % ub, (generate_u128 a).2))
    ∧ (isPow2 ub = false → isPow2 (ub + 1) = true → ub ≤ 2 ^ 127 →
      generate_from_zero_range fuel a ub
        = some ((generate_u128 a).1 % (ub + 1), (generate_u128 a).2)) := by
  constructor
  · intro hp
    unfold generate_from_zero_range
    rw [if_pos hp]
  · intro hf hp hub
    obtain ⟨j, hj128, hj⟩ := (isPow2_iff _).mp hp
    rw [generate_from_zero_range_nonpow fuel a ub hf (by omega)]
    rcases Nat.lt_or_ge j 2 with hj2 | hj2
    · interval_cases j
      · have hub0 : ub = 0 := by omega
        subst hub0
        rw [show nextPow2 0 = 1 from rfl, Nat.mod_one,
          fzrLoop_exit _ _ _ _ _ (Nat.le_refl 0)]
      · have hub1 : ub = 1 := by omega
        rw [hub1] at hf
        exact absurd hf (by decide)
    · have hbig : (2 : Nat) ≤ 2 ^ 127 := by norm_num
      have hj127 : j ≤ 128 := by
        by_contra hx
        push_neg at hx
        have hge : (2 : Nat) ^ 129 ≤ 2 ^ j := Nat.pow_le_pow_right (by norm_num) (by omega)
        have h129 : (2 : Nat) ^ 129 = 2 ^ 127 * 4 := by norm_num
        omega
      have hx : nextPow2 ub = ub + 1 := by
        rw [show ub = 2 ^ j - 1 from by omega, nextPow2_pred_pow hj2 hj127]
        have : 0 < 2 ^ j := by positivity
        omega
      rw [hx]
      have hle : (generate_u128 a).1 % (ub + 1) ≤ ub := by
        have := Nat.mod_lt (generate_u128 a).1 (show 0 < ub + 1 from by omega)
        omega
      rw [fzrLoop_exit _ _ _ _ _ hle]

/-- Witness for C2 amended, exercising both the width-power-of-two path
and the width-plus-one-power-of-two path at a concrete small state. -/
theorem claim_C2_amended_pow2_paths_witness :
    generate_from_zero_range 5 ⟨2, 4, [3, 2]⟩ 2
      = some ((generate_u128 ⟨2, 4, [3, 2]⟩).1 % 2, (generate_u128 ⟨2, 4, [3, 2]⟩).2)
    ∧ generate_from_zero_range 5 ⟨2, 4, [3, 2]⟩ 3
      = some ((generate_u128 ⟨2, 4, [3, 2]⟩).1 % 4, (generate_u128 ⟨2, 4, [3, 2]⟩).2) :=
  ⟨(claim_C2_amended_pow2_paths 5 ⟨2, 4, [3, 2]⟩ 2).1 (by decide),
   (claim_C2_amended_pow2_paths 5 ⟨2, 4, [3, 2]⟩ 3).2 (by decide) (by decide)
     (by norm_num)⟩

/-- C9: when the span width hi - lo is itself a power of two, the range
sampler performs exactly one raw draw reduced modulo the width, so the
result always lies strictly below hi, and for hi = lo + 1 it is always
exactly lo. -/
theorem claim_C9_pow2_width_excludes_hi (fuel : Nat) (a : Acorn) (lo hi : Nat)
    (hlt : lo < hi) (hp : isPow2 (hi - lo) = true) :
    generate_number_between_range fuel a lo hi
      = some ((generate_u128 a).1 % (hi - lo) + lo, (generate_u128 a).2)
    ∧ (generate_u128 a).1 % (hi - lo) + lo < hi
    ∧ (hi = lo + 1 → (generate_u128 a).1 % (hi - lo) + lo = lo) := by
  have hpos : 0 < hi - lo := by omega
  have hmod : (generate_u128 a).1 % (hi - lo) < hi - lo := Nat.mod_lt _ hpos
  refine ⟨?_, by omega, ?_⟩
  · unfold generate_number_between_range generate_from_zero_range
    rw [if_pos hp]
  · intro h1
    rw [h1]
    simp [Nat.mod_one]

/-- Witness for C9 at a concrete small state and the range 0 ..= 2. -/
theorem claim_C9_pow2_width_excludes_hi_witness :
    generate_number_between_range 0 ⟨2, 4, [3, 2]⟩ 0 2
      = some ((generate_u128 ⟨2, 4, [3, 2]⟩).1 % (2 - 0) + 0,
              (generate_u128 ⟨2, 4, [3, 2]⟩).2)
    ∧ (generate_u128 ⟨2, 4, [3, 2]⟩).1 % (2 - 0) + 0 < 2
    ∧ ((2 : Nat) = 0 + 1 → (generate_u128 ⟨2, 4, [3, 2]⟩).1 % (2 - 0) + 0 = 0) :=
  claim_C9_pow2_width_excludes_hi 0 ⟨2, 4, [3, 2]⟩ 0 2 (by decide) (by decide)

/-- The pre-warm-up state of the concrete scenario (order 45, seed
1000000): forty-five copies of the processed seed 1000001. -/
theorem acornInit_concrete :
    acornInit (Order.new 45) (Seed.new 1000000)
      = ⟨45, 2 ^ 120, List.replicate 45 1000001⟩ := by
  decide

/-- Sixteen raw steps from the replicated seed state. -/
theorem warm16_step :
    stepA^[16] ⟨45, 2 ^ 120, List.replicate 45 1000001⟩ = warm16 := by
  decide

/-- Sixteen further raw steps. -/
theorem warm32_step : stepA^[16] warm16 = warm32 := by
  decide

/-- Sixteen further raw steps. -/
theorem warm48_step : stepA^[16] warm32 = warm48 := by
  decide

/-- Sixteen further raw steps. -/
theorem warm64_step : stepA^[16] warm48 = warm64 := by
  decide

/-- The final three warm-up steps. -/
theorem warm67_step : stepA^[3] warm64 = warm67 := by
  decide

/-- Twelve raw steps beyond the warm-up. -/
theorem warm79_step : stepA^[12] warm67 = warm79 := by
  decide

/-- The concrete constructor run evaluates to the literal post-warm-up
state. -/
theorem acornDefault_eq : acornDefault = warm67 := by
  show Acorn.new (Order.new 45) (Seed.new 1000000) = warm67
  rw [new_eq_iterate, acornInit_concrete,
    show (67 : Nat) = 3 + (16 + (16 + (16 + 16))) from rfl,
    Function.iterate_add_apply, Function.iterate_add_apply,
    Function.iterate_add_apply, Function.iterate_add_apply,
    warm16_step, warm32_step, warm48_step, warm64_step, warm67_step]

/-- The reachable state twelve raw steps after the concrete construction
evaluates to its literal. -/
theorem reach_twelve_eq : reach 45 1000000 12 = warm79 := by
  show stepA^[12] (Acorn.new (Order.new 45) (Seed.new 1000000)) = warm79
  rw [show Acorn.new (Order.new 45) (Seed.new 1000000) = warm67 from acornDefault_eq]
  exact warm79_step

/-- C4: the source constructor coincides with the reference pipeline of the
spec (clamped seed forced odd, reduced modulo 2 ^ 120, replicated across a
buffer of length order, followed by exactly 67 raw steps), and the odd
forcing increment can never overflow a u128 because an even clamped seed is
strictly below the odd value u128::MAX. -/
theorem claim_C4_construction_pipeline (oin sin : Nat) :
    Acorn.new (Order.new oin) (Seed.new sin)
      = newRef (Order.new oin) (Seed.new sin)
    ∧ ((Seed.new sin).val % 2 = 0 → (Seed.new sin).val + 1 < 2 ^ 128) := by
  constructor
  · rw [new_eq_iterate]
    rfl
  · intro h
    have hle : (Seed.new sin).val ≤ 340282366920938463463374607431768211455 := by
      show min (max sin 1000000) 340282366920938463463374607431768211455 ≤ _
      omega
    have hne : (Seed.new sin).val ≠ 340282366920938463463374607431768211455 := by
      intro he
      rw [he] at h
      exact absurd h (by decide)
    have h128 : (2 : Nat) ^ 128 = 340282366920938463463374607431768211455 + 1 := by
      norm_num
    omega

/-- Witness for C4 at the concrete construction inputs. -/
theorem claim_C4_construction_pipeline_witness :
    Acorn.new (Order.new 45) (Seed.new 1000000)
      = newRef (Order.new 45) (Seed.new 1000000)
    ∧ ((Seed.new 1000000).val % 2 = 0 ∧ (Seed.new 1000000).val + 1 < 2 ^ 128) :=
  ⟨(claim_C4_construction_pipeline 45 1000000).1,
   by decide, (claim_C4_construction_pipeline 45 1000000).2 (by decide)⟩

/-- C6: on every constructor-reachable state, a raw step returns a value in
[0, 2 ^ 120) equal to the sum of all history elements modulo 2 ^ 120, and
writes that value back as the new last history element.  The step function
itself is total, so there is no error condition. -/
theorem claim_C6_step_sum_mod (oin sin n : Nat) :
    (generate_u128 (reach oin sin n)).1 < 2 ^ 120
    ∧ (generate_u128 (reach oin sin n)).1 = (reach oin sin n).y.sum % 2 ^ 120
    ∧ (generate_u128 (reach oin sin n)).2.y.getLast?
        = some ((generate_u128 (reach oin sin n)).1) := by
  obtain ⟨⟨hm, hk, hlen, hy⟩, _⟩ := reach_wf oin sin n
  have hm0 : 0 < (reach oin sin n).m := by rw [hm]; positivity
  obtain ⟨hv, _, _, _, _, hlast⟩ :=
    generate_u128_spec (reach oin sin n) hm0 (by omega) hlen
  refine ⟨?_, ?_, hlast⟩
  · rw [hv, hm]
    exact Nat.mod_lt _ (by positivity)
  · rw [hv, hm]

/-- C7: every history element of a constructor-reachable state is strictly
below 2 ^ 120, and on any state satisfying the element invariant the
wrapped-addition step agrees with the exact step (no u128 overflow) and
the invariant is preserved. -/
theorem claim_C7_history_lt_modulus (oin sin n : Nat) :
    (∀ e ∈ (reach oin sin n).y, e < 2 ^ 120)
    ∧ (∀ a : Acorn, 0 < a.m → 2 * a.m ≤ 2 ^ 128 → (∀ e ∈ a.y, e < a.m) →
        generate_u128_w a = generate_u128 a
        ∧ ∀ e ∈ (generate_u128 a).2.y, e < a.m) := by
  constructor
  · obtain ⟨⟨hm, _, _, hy⟩, _⟩ := reach_wf oin sin n
    intro e he
    have h := hy e he
    rw [hm] at h
    exact h
  · intro a hm hw hy
    exact ⟨generate_u128_w_eq a hm hw hy, generate_u128_lt a hm hw hy⟩

/-- Witness for C7: first conjunct at the concrete construction, second at
a concrete small state whose hypotheses are checked by evaluation. -/
theorem claim_C7_history_lt_modulus_witness :
    (∀ e ∈ (reach 45 1000000 0).y, e < 2 ^ 120)
    ∧ (generate_u128_w ⟨2, 4, [3, 2]⟩ = generate_u128 ⟨2, 4, [3, 2]⟩
        ∧ ∀ e ∈ (generate_u128 ⟨2, 4, [3, 2]⟩).2.y, e < (⟨2, 4, [3, 2]⟩ : Acorn).m) :=
  ⟨(claim_C7_history_lt_modulus 45 1000000 0).1,
   (claim_C7_history_lt_modulus 45 1000000 0).2 ⟨2, 4, [3, 2]⟩ (by decide)
     (by norm_num) (by decide)⟩

/-- C10: a raw generation step rewrites the first history element with its
own value, so on every constructor-reachable state, after any number of raw
steps, the head of the history buffer is still the processed seed. -/
theorem claim_C10_head_never_changes (oin sin n : Nat) :
    (reach oin sin n).y.head? = some (processedSeed (Seed.new sin).val) :=
  (reach_wf oin sin n).2

/-- C8: the concrete scenario of the spec: the first raw draw after
constructing with order 45 and seed 1000000 is the stated literal, and a
fresh generator returns 419 for the inclusive range 71 ..= 777 (the fuelled
rejection loop answers well within fuel 100, so the Rust loop returns the
same value). -/
theorem claim_C8_concrete_values :
    (generate_u128 acornDefault).1 = 707329019109624976857103382873185628
    ∧ (generate_number_between_range 100 acornDefault 71 777).map Prod.fst
        = some 419 := by
  rw [acornDefault_eq]
  constructor
  · decide
  · decide

/-- C2 counterexample: twelve raw steps after the concrete construction the
raw draw is odd; for the range 5 ..= 6 (width 1, width + 1 = 2 a power of
two) the claim formula lo + raw mod (width + 1) predicts 6, while the code
reduces modulo the width 1 and returns 5. -/
theorem claim_C2_counterexample :
    (generate_number_between_range 10 (reach 45 1000000 12) 5 6).map Prod.fst
      = some 5
    ∧ 5 + (generate_u128 (reach 45 1000000 12)).1 % 2 = 6 := by
  rw [reach_twelve_eq]
  constructor
  · decide
  · decide

/-- C3 counterexample: on the fresh concrete generator and the multi-length
range 71 ..= 777, the per-length-candidates-plus-fair-index reference
algorithm of the spec yields 616 while the code yields 419: the code does
not implement the reference algorithm. -/
theorem claim_C3_counterexample :
    (specMultiLenRange 100 acornDefault 71 777).map Prod.fst
      ≠ (generate_number_between_range 100 acornDefault 71 777).map Prod.fst := by
  rw [acornDefault_eq]
  decide

/-- C3 amended: on every range request, multi-length spans included, the
range generator performs a single direct rejection pass over the zero-based
width and shifts by lo; it never draws per-length candidates nor invokes
the fair index selector.  On the fresh concrete generator the multi-length
request 71 ..= 777 returns 419 this way. -/
theorem claim_C3_amended_direct_rejection (fuel : Nat) (a : Acorn) (lo hi : Nat) :
    generate_number_between_range fuel a lo hi
      = (generate_from_zero_range fuel a (hi - lo)).map (fun p => (p.1 + lo, p.2))
    ∧ (generate_number_between_range 100 acornDefault 71 777).map Prod.fst
        = some 419 := by
  constructor
  · unfold generate_number_between_range
    cases generate_from_zero_range fuel a (hi - lo) <;> simp
  · rw [acornDefault_eq]
    decide

/-- C5 amended: the bounds lookup succeeds exactly on digit lengths in
[2, 39]; length 1 falls through to the unreachable arm (the caller,
`generate_fixed_length_number`, diverts length 1 before the lookup). -/
theorem claim_C5_bounds_lookup_amended (length : Nat) (t : NumType) :
    (generate_bounds length t).isSome = true ↔ 2 ≤ length ∧ length ≤ 39 := by
  constructor
  · intro h
    by_contra hc
    have hor : length ≤ 1 ∨ 40 ≤ length := by omega
    have hnone : generate_bounds length t = none := by
      unfold generate_bounds
      rw [if_neg (show ¬ length = 2 from by omega),
        if_neg (show ¬ length = 3 from by omega),
        if_neg (show ¬ length = 4 from by omega),
        if_neg (show ¬ length = 5 from by omega),
        if_neg (show ¬ length = 6 from by omega),
        if_neg (show ¬ length = 7 from by omega),
        if_neg (show ¬ length = 8 from by omega),
        if_neg (show ¬ length = 9 from by omega),
        if_neg (show ¬ length = 10 from by omega),
        if_neg (show ¬ length = 11 from by omega),
        if_neg (show ¬ length = 12 from by omega),
        if_neg (show ¬ length = 13 from by omega),
        if_neg (show ¬ length = 14 from by omega),
        if_neg (show ¬ length = 15 from by omega),
        if_neg (show ¬ length = 16 from by omega),
        if_neg (show ¬ length = 17 from by omega),
        if_neg (show ¬ length = 18 from by omega),
        if_neg (show ¬ length = 19 from by omega),
        if_neg (show ¬ length = 20 from by omega),
        if_neg (show ¬ length = 21 from by omega),
        if_neg (show ¬ length = 22 from by omega),
        if_neg (show ¬ length = 23 from by omega),
        if_neg (show ¬ length = 24 from by omega),
        if_neg (show ¬ length = 25 from by omega),
        if_neg (show ¬ length = 26 from by omega),
        if_neg (show ¬ length = 27 from by omega),
        if_neg (show ¬ length = 28 from by omega),
        if_neg (show ¬ length = 29 from by omega),
        if_neg (show ¬ length = 30 from by omega),
        if_neg (show ¬ length = 31 from by omega),
        if_neg (show ¬ length = 32 from by omega),
        if_neg (show ¬ length = 33 from by omega),
        if_neg (show ¬ length = 34 from by omega),
        if_neg (show ¬ length = 35 from by omega),
        if_neg (show ¬ length = 36 from by omega),
        if_neg (show ¬ length = 37 from by omega),
        if_neg (show ¬ length = 38 from by omega),
        if_neg (show ¬ length = 39 from by omega)]
    rw [hnone] at h
    simp at h
  · rintro ⟨h2, h39⟩
    interval_cases length <;> cases t <;> decide

/-- C5 counterexample: the lookup at digit length 1 takes the unreachable
arm. -/
theorem claim_C5_counterexample : generate_bounds 1 NumType.U128 = none := by
  rfl

end AcornPrng
